import Mathlib

/-!
Shallow embedding of the core of the Blaze linear-algebra library:
the dense submatrix view (`blaze/math/views/DenseSubmatrix.h`) and the
dynamic dense vector container (`DynamicVector`, found in
`blaze/math/DiagonalMatrix.h`), together with proofs of the testable
properties stated for them.

Machine integers (`size_t`) are modelled as `Nat`; element types are
modelled as `Int` (a numeric element type, so `IsNumeric<Type>::value`
holds and the default value `Type()` is `0`).  A dense matrix is modelled
as its logical dimensions together with a total storage function; storage
positions outside the logical bounds model the padded region of the
underlying container.  Exceptions (`std::invalid_argument`) are modelled
with `Except`, the error carrying the message and the state of the
underlying matrix at the moment of the throw.
-/

namespace Blaze

/-- Number of values per intrinsic element (`IT::size` = `IntrinsicTrait<Type>::size`
in the source).  This is a hardware/ABI-dependent compile-time constant of the
platform (the intrinsics headers are outside the excerpt); the embedding
instantiates it at 4, the SSE width for 4-byte element types. -/
def ITsize : Nat := 4

/-- A dense matrix: logical row/column counts plus a total storage function
giving the element at position `(i, j)`.  Positions outside the logical
bounds model the padded storage region of the underlying container. -/
structure Mat where
  rows : Nat
  cols : Nat
  v : Nat → Nat → Int

/-- Write a single element of a matrix (the effect of `matrix_(i,j) = x`). -/
def Mat.update (A : Mat) (i j : Nat) (x : Int) : Mat :=
  { A with v := fun a b => if a = i ∧ b = j then x else A.v a b }

/-- The width-`ITsize` intrinsic load `load(i,j)` of a dense matrix: the
vector of elements of row `i` starting at column `j`. -/
def Mat.load (B : Mat) (i j : Nat) : Nat → Int :=
  fun k => B.v i (j + k)

/-- The width-`ITsize` intrinsic store `storeu(i,j,value)` of a dense matrix:
writes `value[k]` to position `(i, j+k)` for every `k < ITsize`.  The
aligned store and the non-temporal `stream` store have the same effect on
the stored values. -/
def Mat.storeuW (A : Mat) (i j : Nat) (val : Nat → Int) : Mat :=
  { A with v := fun a b =>
      if a = i ∧ j ≤ b ∧ b < j + ITsize then val (b - j) else A.v a b }

/-- The `DenseSubmatrix<MT,SO>` view: the start offsets `row_`/`column_`, the
extents `m_`/`n_`, and the derived fields `rest_`, `final_` and `aligned_`
computed by the constructor.  The reference to the underlying matrix is
modelled by passing the matrix state explicitly to every operation. -/
structure DenseSubmatrix where
  row : Nat
  column : Nat
  m : Nat
  n : Nat
  rest : Nat
  final : Nat
  aligned : Bool

/-- The constructor `DenseSubmatrix(matrix, row, column, m, n)`: initializes
the members (including the derived `rest_`, `final_` and `aligned_` fields)
and throws `std::invalid_argument("Invalid submatrix specification")` when
`row + m > matrix.rows()` or `column + n > matrix.columns()`. -/
def mkDenseSubmatrix (A : Mat) (row column m n : Nat) :
    Except String DenseSubmatrix :=
  if row + m > A.rows ∨ column + n > A.cols then
    Except.error "Invalid submatrix specification"
  else
    Except.ok
      { row := row
        column := column
        m := m
        n := n
        rest := n % ITsize
        final := n - n % ITsize
        aligned := (column % ITsize == 0) &&
                   ((column + n == A.cols) || (n % ITsize == 0)) }

/-- Element access `operator()(i,j)` of the view: returns
`matrix_(row_ + i, column_ + j)`. -/
def DenseSubmatrix.app (S : DenseSubmatrix) (A : Mat) (i j : Nat) : Int :=
  A.v (S.row + i) (S.column + j)

/-- The `rows()` member of the view. -/
def DenseSubmatrix.rowsFn (S : DenseSubmatrix) : Nat := S.m

/-- The `columns()` member of the view. -/
def DenseSubmatrix.columnsFn (S : DenseSubmatrix) : Nat := S.n

/-- The free function `submatrix(const DenseSubmatrix&, row, column, m, n)`:
builds `DenseSubmatrix(dm.matrix_, dm.row_ + row, dm.column_ + column, m, n)`
over the root matrix, accumulating the offsets; bounds are re-checked by the
constructor against the root matrix only. -/
def submatrixOfView (A : Mat) (V : DenseSubmatrix) (row column m n : Nat) :
    Except String DenseSubmatrix :=
  mkDenseSubmatrix A (V.row + row) (V.column + column) m n

/-- The concrete 10x10 row-major matrix with `A(i,j) = i*10 + j` from the
specification's scenario. -/
def mat10 : Mat :=
  { rows := 10, cols := 10, v := fun i j => (i * 10 + j : Nat) }

/-- The submatrix-level unaligned store `DenseSubmatrix::storeu(i,j,value)`:
when the view is fully aligned or `j` is not the final index, it delegates to
the matrix-level full-width store at `(row_ + i, column_ + j)`; otherwise it
writes only the `rest_` remaining elements one by one. -/
def DenseSubmatrix.storeuSub (S : DenseSubmatrix) (A : Mat) (i j : Nat)
    (val : Nat → Int) : Mat :=
  if S.aligned = true ∨ j ≠ S.final then
    A.storeuW (S.row + i) (S.column + j) val
  else
    { A with v := fun a b =>
        if a = S.row + i ∧ S.column + j ≤ b ∧ b < S.column + j + S.rest then
          val (b - (S.column + j))
        else A.v a b }

/-- Processing of one row `i` by the default assignment kernel: pairs
`(j, j+1)` are written up to `jend = n_ & size_t(-2)` (which the kernel's
internal assertion spells as `n_ - n_ % 2`), followed by a single element
when `jend < n_`. -/
def assignDefaultRow (S : DenseSubmatrix) (B : Mat) (i : Nat) (acc : Mat) : Mat :=
  let acc2 :=
    (List.range' 0 (S.n / 2) 2).foldl
      (fun a j =>
        (a.update (S.row + i) (S.column + j) (B.v i j)).update
          (S.row + i) (S.column + (j + 1)) (B.v i (j + 1)))
      acc
  if S.n - S.n % 2 < S.n then
    acc2.update (S.row + i) (S.column + (S.n - S.n % 2)) (B.v i (S.n - S.n % 2))
  else acc2

/-- The default (scalar, stride-2 unrolled) assignment kernel
`assign(const DenseMatrix<MT2,SO>&)` selected by
`DisableIf<VectorizedAssign>`. -/
def assignDefault (S : DenseSubmatrix) (A : Mat) (B : Mat) : Mat :=
  (List.range S.m).foldl (fun acc i => assignDefaultRow S B i acc) A

/-- Processing of one row by the streaming branch of the intrinsic assignment
kernel: non-temporal full-width stores at `j = 0, IT::size, 2*IT::size, ...`
while `j < n_`. -/
def assignStreamRow (S : DenseSubmatrix) (B : Mat) (i : Nat) (acc : Mat) : Mat :=
  (List.range' 0 ((S.n + ITsize - 1) / ITsize) ITsize).foldl
    (fun a j => a.storeuW (S.row + i) (S.column + j) (B.load i j)) acc

/-- The streaming branch of the intrinsic assignment kernel (taken when the
view is fully aligned, larger than the cache threshold, and the source is
not aliased). -/
def assignVecStream (S : DenseSubmatrix) (A B : Mat) : Mat :=
  (List.range S.m).foldl (fun acc i => assignStreamRow S B i acc) A

/-- Processing of one row by the non-streaming branch of the intrinsic
assignment kernel: a 4-fold unrolled main loop of matrix-level unaligned
stores up to `jend = n_ & size_t(-IT::size*4)` (spelled
`n_ - n_ % (IT::size*4)` by the kernel's internal assertion), followed by a
submatrix-level remainder loop stepping by `IT::size` while `j < n_`. -/
def assignUnalignedRow (S : DenseSubmatrix) (B : Mat) (i : Nat) (acc : Mat) : Mat :=
  let jend := S.n - S.n % (ITsize * 4)
  let acc2 :=
    (List.range' 0 (jend / (ITsize * 4)) (ITsize * 4)).foldl
      (fun a j =>
        (((a.storeuW (S.row + i) (S.column + j) (B.load i j)).storeuW
              (S.row + i) (S.column + (j + ITsize))
              (B.load i (j + ITsize))).storeuW
            (S.row + i) (S.column + (j + ITsize * 2))
            (B.load i (j + ITsize * 2))).storeuW
          (S.row + i) (S.column + (j + ITsize * 3))
          (B.load i (j + ITsize * 3)))
      acc
  (List.range' jend ((S.n - jend + ITsize - 1) / ITsize) ITsize).foldl
    (fun a j => S.storeuSub a i j (B.load i j)) acc2

/-- The non-streaming branch of the intrinsic assignment kernel. -/
def assignVecUnaligned (S : DenseSubmatrix) (A B : Mat) : Mat :=
  (List.range S.m).foldl (fun acc i => assignUnalignedRow S B i acc) A

/-- The intrinsic (vectorized) assignment kernel selected by
`EnableIf<VectorizedAssign>`; the branch condition
`aligned_ && m_*n_ > cacheSize/(sizeof(ElementType)*3) && !rhs.isAliased(&matrix_)`
involves the platform cache size and the runtime aliasing check, and is
exposed here as the `stream` parameter. -/
def assignVectorized (S : DenseSubmatrix) (A B : Mat) (stream : Bool) : Mat :=
  if stream then assignVecStream S A B else assignVecUnaligned S A B

/-- Resetting of one row `i` (an absolute row index of the underlying
matrix) by the view's `reset()` member. -/
def resetRow (S : DenseSubmatrix) (i : Nat) (acc : Mat) : Mat :=
  (List.range' S.column S.n 1).foldl (fun a j => a.update i j 0) acc

/-- The view's `reset()` member: resets every element of the view region of
the underlying matrix to the default value. -/
def DenseSubmatrix.resetView (S : DenseSubmatrix) (A : Mat) : Mat :=
  (List.range' S.row S.m 1).foldl (fun acc i => resetRow S i acc) A

/-- A row-major sparse matrix, modelled by its dimensions and the list of its
explicitly stored elements `(rowIndex, columnIndex, value)` in the row-major
iteration order produced by `begin(i)`/`end(i)` for `i = 0, ..., rows-1`. -/
structure SparseMat where
  rows : Nat
  cols : Nat
  entries : List (Nat × Nat × Int)

/-- The sparse-source assignment kernel `assign(const SparseMatrix<MT2,SO>&)`:
iterates the explicitly stored elements of the source and writes
`matrix_(row_ + i, column_ + element->index()) = element->value()` for each. -/
def assignSparse (S : DenseSubmatrix) (A : Mat) (B : SparseMat) : Mat :=
  B.entries.foldl
    (fun acc e => acc.update (S.row + e.1) (S.column + e.2.1) e.2.2) A

/-- The assignment operator `operator=(const Matrix<MT2,SO2>&)` for a dense
right-hand side that is an independent matrix (so `(~rhs).canAlias(&matrix_)`
is false and no temporary is needed): the shape is validated first, throwing
`std::invalid_argument("Matrix sizes do not match")` before any element is
written; the error carries the (unchanged) state of the underlying matrix at
the throw point.  The subsequent `assign(*this, ~rhs)` is instantiated here
with the default kernel, the selection made for a generic element type. -/
def DenseSubmatrix.opAssignDense (S : DenseSubmatrix) (A B : Mat) :
    Except (String × Mat) Mat :=
  if S.m ≠ B.rows ∨ S.n ≠ B.cols then
    Except.error ("Matrix sizes do not match", A)
  else
    Except.ok (assignDefault S A B)

/-- The assignment operator `operator=(const Matrix<MT2,SO2>&)` for a sparse
right-hand side that is an independent matrix: shape validation first, then
`reset()` of the view region (because `IsSparseMatrix<MT2>::value` holds),
then the sparse assignment kernel. -/
def DenseSubmatrix.opAssignSparse (S : DenseSubmatrix) (A : Mat)
    (B : SparseMat) : Except (String × Mat) Mat :=
  if S.m ≠ B.rows ∨ S.n ≠ B.cols then
    Except.error ("Matrix sizes do not match", A)
  else
    Except.ok (assignSparse S (S.resetView A) B)

/-- The default (scalar, stride-2 unrolled) addition-assignment kernel
`addAssign(const DenseMatrix<MT2,SO>&)`. -/
def addAssignDefault (S : DenseSubmatrix) (A : Mat) (B : Mat) : Mat :=
  (List.range S.m).foldl
    (fun acc i =>
      let acc2 :=
        (List.range' 0 (S.n / 2) 2).foldl
          (fun a j =>
            let a1 := a.update (S.row + i) (S.column + j)
              (a.v (S.row + i) (S.column + j) + B.v i j)
            a1.update (S.row + i) (S.column + (j + 1))
              (a1.v (S.row + i) (S.column + (j + 1)) + B.v i (j + 1)))
          acc
      if S.n - S.n % 2 < S.n then
        acc2.update (S.row + i) (S.column + (S.n - S.n % 2))
          (acc2.v (S.row + i) (S.column + (S.n - S.n % 2)) +
            B.v i (S.n - S.n % 2))
      else acc2)
    A

/-- The default (scalar, stride-2 unrolled) subtraction-assignment kernel
`subAssign(const DenseMatrix<MT2,SO>&)`. -/
def subAssignDefault (S : DenseSubmatrix) (A : Mat) (B : Mat) : Mat :=
  (List.range S.m).foldl
    (fun acc i =>
      let acc2 :=
        (List.range' 0 (S.n / 2) 2).foldl
          (fun a j =>
            let a1 := a.update (S.row + i) (S.column + j)
              (a.v (S.row + i) (S.column + j) - B.v i j)
            a1.update (S.row + i) (S.column + (j + 1))
              (a1.v (S.row + i) (S.column + (j + 1)) - B.v i (j + 1)))
          acc
      if S.n - S.n % 2 < S.n then
        acc2.update (S.row + i) (S.column + (S.n - S.n % 2))
          (acc2.v (S.row + i) (S.column + (S.n - S.n % 2)) -
            B.v i (S.n - S.n % 2))
      else acc2)
    A

/-- The compound operator `operator+=(const Matrix<MT2,SO2>&)` for an
independent dense right-hand side: shape validation first (throwing before
any write, the error carrying the unchanged matrix state), then the
addition-assignment kernel. -/
def DenseSubmatrix.opAddAssign (S : DenseSubmatrix) (A B : Mat) :
    Except (String × Mat) Mat :=
  if S.m ≠ B.rows ∨ S.n ≠ B.cols then
    Except.error ("Matrix sizes do not match", A)
  else
    Except.ok (addAssignDefault S A B)

/-- The compound operator `operator-=(const Matrix<MT2,SO2>&)` for an
independent dense right-hand side: shape validation first (throwing before
any write), then the subtraction-assignment kernel. -/
def DenseSubmatrix.opSubAssign (S : DenseSubmatrix) (A B : Mat) :
    Except (String × Mat) Mat :=
  if S.m ≠ B.rows ∨ S.n ≠ B.cols then
    Except.error ("Matrix sizes do not match", A)
  else
    Except.ok (subAssignDefault S A B)

/-- The independent temporary `const ResultType tmp( rhs )` materializing the
contents of the source view `T` of matrix `A` into an owning matrix. -/
def viewTemp (T : DenseSubmatrix) (A : Mat) : Mat :=
  { rows := T.m, cols := T.n, v := fun i j => A.v (T.row + i) (T.column + j) }

/-- The copy-assignment operator `operator=(const DenseSubmatrix&)` in the
case where the source view `T` lives over the same underlying matrix as the
destination view `S` (so `&matrix_ == &rhs.matrix_`): the identity check
`row_ == rhs.row_ && column_ == rhs.column_` returns early; otherwise the
shape is validated, and since `rhs.canAlias(&matrix_)` holds (pointer
identity on the shared matrix), the source is materialized into the
independent temporary `ResultType tmp(rhs)` before `assign(*this, tmp)`
writes any destination element. -/
def DenseSubmatrix.opAssignView (S T : DenseSubmatrix) (A : Mat) :
    Except (String × Mat) Mat :=
  if S.row = T.row ∧ S.column = T.column then
    Except.ok A
  else if S.m ≠ T.m ∨ S.n ≠ T.n then
    Except.error ("Submatrix sizes do not match", A)
  else
    Except.ok (assignDefault S A (viewTemp T A))

/-- Specification-side semantics of aliasing-safe view assignment, written
from the specification's words for the refinement claim: first copy the
source view's region into an independent temporary, then assign that
temporary to the destination region element by element. -/
def opAssignViewSpec (S T : DenseSubmatrix) (A : Mat) : Mat :=
  let tmp : Nat → Nat → Int := fun i j => A.v (T.row + i) (T.column + j)
  { A with v := fun a b =>
      if S.row ≤ a ∧ a < S.row + S.m ∧ S.column ≤ b ∧ b < S.column + S.n then
        tmp (a - S.row) (b - S.column)
      else A.v a b }

/-- The `DynamicVector<Type,TF>` container: the logical size `size_`, the
allocated capacity `capacity_`, and the storage array `v_`, modelled as a
total function (positions at and beyond the capacity are never accessed). -/
structure DynamicVector where
  size : Nat
  capacity : Nat
  v : Nat → Int

/-- The capacity adjustment `adjustCapacity(minCapacity)`: for numeric
element types (the case modelled here), rounds the requested capacity up to
the next multiple of `IT::size`. -/
def adjustCapacity (minCapacity : Nat) : Nat :=
  minCapacity + (ITsize - minCapacity % ITsize) % ITsize

/-- The constructor `DynamicVector(n)`: allocates `adjustCapacity(n)` slots
(with uninitialized contents, modelled by the arbitrary function `garbage`)
and, for numeric element types, default-initializes the padding region
`[size_, capacity_)`.  The first `n` logical elements are deliberately left
uninitialized. -/
def DynamicVector.create (garbage : Nat → Int) (n : Nat) : DynamicVector :=
  { size := n
    capacity := adjustCapacity n
    v := fun i => if n ≤ i ∧ i < adjustCapacity n then 0 else garbage i }

/-- The constructor `DynamicVector(n, init)`: as `create`, but fills the
first `n` slots with `init`. -/
def DynamicVector.createInit (garbage : Nat → Int) (n : Nat) (init : Int) :
    DynamicVector :=
  { size := n
    capacity := adjustCapacity n
    v := fun i =>
      if i < n then init
      else if i < adjustCapacity n then 0
      else garbage i }

/-- The member `resize(n, preserve)`: when `n` exceeds the capacity, a new
array of `adjustCapacity(n)` slots is allocated (fresh contents modelled by
`garbage`), the old logical prefix is copied when `preserve` holds, and the
region from the old logical size to the new capacity is default-initialized
(numeric element type); otherwise no reallocation happens and, when
shrinking, the abandoned slots `[n, size_)` are reset to the default value.
Finally the logical size becomes `n`. -/
def DynamicVector.resize (d : DynamicVector) (garbage : Nat → Int) (n : Nat)
    (preserve : Bool) : DynamicVector :=
  if n > d.capacity then
    { size := n
      capacity := adjustCapacity n
      v := fun i =>
        if preserve = true ∧ i < d.size then d.v i
        else if d.size ≤ i ∧ i < adjustCapacity n then 0
        else garbage i }
  else if n < d.size then
    { size := n
      capacity := d.capacity
      v := fun i => if n ≤ i ∧ i < d.size then 0 else d.v i }
  else
    { d with size := n }

/-- The member `reserve(n)`: when `n` exceeds the capacity, a new array of
`adjustCapacity(n)` slots is allocated, the logical prefix is copied, and the
region `[size_, newCapacity)` is default-initialized; the logical size never
changes. -/
def DynamicVector.reserve (d : DynamicVector) (garbage : Nat → Int)
    (n : Nat) : DynamicVector :=
  if n > d.capacity then
    { size := d.size
      capacity := adjustCapacity n
      v := fun i =>
        if i < d.size then d.v i
        else if i < adjustCapacity n then 0
        else garbage i }
  else d

/-- The member `extend(n, preserve)`: delegates to `resize(size_ + n, preserve)`. -/
def DynamicVector.extend (d : DynamicVector) (garbage : Nat → Int) (n : Nat)
    (preserve : Bool) : DynamicVector :=
  d.resize garbage (d.size + n) preserve

/-- The member `clear()`: delegates to `resize(0, false)`. -/
def DynamicVector.clear (d : DynamicVector) (garbage : Nat → Int) :
    DynamicVector :=
  d.resize garbage 0 false

/-- The member `swap(v)`: exchanges size, capacity and storage pointer of the
two vectors; the pair holds the new states of the two operands. -/
def DynamicVector.swapVec (d e : DynamicVector) :
    DynamicVector × DynamicVector :=
  (⟨e.size, e.capacity, e.v⟩, ⟨d.size, d.capacity, d.v⟩)

/-- An elementwise write through `operator[]`, whose precondition (checked by
assertion) is `index < size_`. -/
def DynamicVector.set (d : DynamicVector) (i : Nat) (x : Int) : DynamicVector :=
  { d with v := Function.update d.v i x }

/-- The invariant of the container for numeric element types: the capacity
is at least the logical size, and every slot of the padding region
`[size_, capacity_)` holds the default value. -/
def DynamicVector.Inv (d : DynamicVector) : Prop :=
  d.size ≤ d.capacity ∧ ∀ i, d.size ≤ i → i < d.capacity → d.v i = 0

/-- The view region of a submatrix inside the underlying matrix, in absolute
coordinates. -/
def inView (S : DenseSubmatrix) (x y : Nat) : Prop :=
  S.row ≤ x ∧ x < S.row + S.m ∧ S.column ≤ y ∧ y < S.column + S.n

/-- A state transformer `g` on matrices writes the canonical value `f x y` at
exactly the positions satisfying `P` and leaves every other position
unchanged. -/
def writesCanon (f : Nat → Nat → Int) (g : Mat → Mat)
    (P : Nat → Nat → Prop) : Prop :=
  ∀ A x y, (P x y → (g A).v x y = f x y) ∧ (¬ P x y → (g A).v x y = A.v x y)

theorem writesCanon_congr {f : Nat → Nat → Int} {g : Mat → Mat}
    {P Q : Nat → Nat → Prop} (hg : writesCanon f g P)
    (hPQ : ∀ x y, P x y ↔ Q x y) : writesCanon f g Q := by
  intro A x y
  refine ⟨fun h => (hg A x y).1 ((hPQ x y).mpr h),
          fun h => (hg A x y).2 (fun hp => h ((hPQ x y).mp hp))⟩

theorem writesCanon_comp {f : Nat → Nat → Int} {g h : Mat → Mat}
    {P Q : Nat → Nat → Prop} (hg : writesCanon f g P)
    (hh : writesCanon f h Q) :
    writesCanon f (fun A => h (g A)) (fun x y => P x y ∨ Q x y) := by
  intro A x y
  constructor
  · intro hpq
    by_cases hq : Q x y
    · exact (hh (g A) x y).1 hq
    · rcases hpq with hp | hq2
      · rw [(hh (g A) x y).2 hq]
        exact (hg A x y).1 hp
      · exact absurd hq2 hq
  · intro hn
    rw [(hh (g A) x y).2 (fun hq => hn (Or.inr hq)),
        (hg A x y).2 (fun hp => hn (Or.inl hp))]

theorem writesCanon_ite {f : Nat → Nat → Int} {g : Mat → Mat}
    {P : Nat → Nat → Prop} (c : Prop) [Decidable c]
    (hg : writesCanon f g P) :
    writesCanon f (fun A => if c then g A else A)
      (fun x y => c ∧ P x y) := by
  intro A x y
  dsimp only
  constructor
  · intro hp
    rw [if_pos hp.1]
    exact (hg A x y).1 hp.2
  · intro hn
    by_cases hc : c
    · rw [if_pos hc]
      exact (hg A x y).2 (fun hp => hn ⟨hc, hp⟩)
    · rw [if_neg hc]

theorem writesCanon_foldl {β : Type} (f : Nat → Nat → Int)
    (step : β → Mat → Mat) (Pstep : β → Nat → Nat → Prop) :
    ∀ l : List β, (∀ b ∈ l, writesCanon f (step b) (Pstep b)) →
      writesCanon f (fun A => l.foldl (fun acc b => step b acc) A)
        (fun x y => ∃ b ∈ l, Pstep b x y) := by
  intro l
  induction l with
  | nil =>
      intro _ A x y
      refine ⟨?_, fun _ => rfl⟩
      rintro ⟨b, hb, _⟩
      exact absurd hb (List.not_mem_nil b)
  | cons b l ih =>
      intro hall A x y
      have hstep := hall b (List.mem_cons_self b l)
      have hl := ih (fun b' hb' => hall b' (List.mem_cons_of_mem _ hb'))
      simp only [List.foldl_cons]
      have hrest := hl (step b A) x y
      constructor
      · rintro ⟨b', hb', hP⟩
        rcases List.mem_cons.mp hb' with hb2 | hb2
        · by_cases hex : ∃ b'' ∈ l, Pstep b'' x y
          · exact hrest.1 hex
          · rw [hrest.2 hex]
            exact (hstep A x y).1 (hb2 ▸ hP)
        · exact hrest.1 ⟨b', hb2, hP⟩
      · intro hn
        rw [hrest.2 (fun ⟨b', hb', hP⟩ => hn ⟨b', List.mem_cons_of_mem _ hb', hP⟩),
            (hstep A x y).2 (fun hP => hn ⟨b, List.mem_cons_self b l, hP⟩)]

theorem writesCanon_update (f : Nat → Nat → Int) (p q : Nat) (x : Int)
    (hval : x = f p q) :
    writesCanon f (fun A => A.update p q x) (fun a b => a = p ∧ b = q) := by
  intro A a b
  unfold Mat.update
  dsimp only
  constructor
  · rintro ⟨rfl, rfl⟩
    split
    · exact hval
    · next hneg => exact absurd ⟨rfl, rfl⟩ hneg
  · intro hn
    split
    · next hpos => exact absurd hpos hn
    · rfl

theorem writesCanon_storeuW (f : Nat → Nat → Int) (p q : Nat)
    (val : Nat → Int)
    (hval : ∀ b, q ≤ b → b < q + ITsize → val (b - q) = f p b) :
    writesCanon f (fun A => A.storeuW p q val)
      (fun a b => a = p ∧ q ≤ b ∧ b < q + ITsize) := by
  intro A a b
  unfold Mat.storeuW
  dsimp only
  constructor
  · rintro ⟨rfl, hb1, hb2⟩
    split
    · exact hval b hb1 hb2
    · next hneg => exact absurd ⟨rfl, hb1, hb2⟩ hneg
  · intro hn
    split
    · next hpos => exact absurd hpos hn
    · rfl

theorem writesCanon_storeuSub (f : Nat → Nat → Int) (S : DenseSubmatrix)
    (i j : Nat) (val : Nat → Int) (hrest : S.rest ≤ ITsize)
    (hval : ∀ b, S.column + j ≤ b → b < S.column + j + ITsize →
      val (b - (S.column + j)) = f (S.row + i) b) :
    writesCanon f (fun A => S.storeuSub A i j val)
      (fun a b => a = S.row + i ∧ S.column + j ≤ b ∧
        b < S.column + j + (if S.aligned = true ∨ j ≠ S.final then ITsize else S.rest)) := by
  unfold DenseSubmatrix.storeuSub
  by_cases hc : S.aligned = true ∨ j ≠ S.final
  · simp only [if_pos hc]
    exact writesCanon_storeuW f (S.row + i) (S.column + j) val hval
  · simp only [if_neg hc]
    intro A a b
    dsimp only
    constructor
    · rintro ⟨rfl, hb1, hb2⟩
      split
      · exact hval b hb1 (by omega)
      · next hneg => exact absurd ⟨rfl, hb1, hb2⟩ hneg
    · intro hn
      split
      · next hpos => exact absurd hpos hn
      · rfl

/-- The canonical value written by an assignment with source `B` into view
`S`, expressed as a function of the absolute position. -/
def srcVal (S : DenseSubmatrix) (B : Mat) : Nat → Nat → Int :=
  fun x y => B.v (x - S.row) (y - S.column)

theorem assignDefaultRow_writes (S : DenseSubmatrix) (B : Mat) (i : Nat) :
    writesCanon (srcVal S B) (fun A => assignDefaultRow S B i A)
      (fun a b => a = S.row + i ∧ S.column ≤ b ∧ b < S.column + S.n) := by
  have hpair : ∀ j : Nat, writesCanon (srcVal S B)
      (fun a => (a.update (S.row + i) (S.column + j) (B.v i j)).update
        (S.row + i) (S.column + (j + 1)) (B.v i (j + 1)))
      (fun x y => (x = S.row + i ∧ y = S.column + j) ∨
        (x = S.row + i ∧ y = S.column + (j + 1))) := by
    intro j
    exact writesCanon_comp
      (writesCanon_update _ _ _ _ (by simp [srcVal]))
      (writesCanon_update _ _ _ _ (by simp [srcVal]))
  have hfold := writesCanon_foldl (srcVal S B)
    (fun j a => (a.update (S.row + i) (S.column + j) (B.v i j)).update
      (S.row + i) (S.column + (j + 1)) (B.v i (j + 1)))
    (fun j x y => (x = S.row + i ∧ y = S.column + j) ∨
      (x = S.row + i ∧ y = S.column + (j + 1)))
    (List.range' 0 (S.n / 2) 2)
    (fun j _ => hpair j)
  have htail := writesCanon_ite (S.n - S.n % 2 < S.n)
    (writesCanon_update (srcVal S B) (S.row + i) (S.column + (S.n - S.n % 2))
      (B.v i (S.n - S.n % 2)) (by simp [srcVal]))
  have hcomp := writesCanon_comp hfold htail
  refine writesCanon_congr hcomp ?_
  intro a b
  constructor
  · rintro (⟨j, hj, hcase⟩ | ⟨hc, rfl, rfl⟩)
    · rw [List.mem_range'] at hj
      obtain ⟨t, ht, rfl⟩ := hj
      rcases hcase with ⟨rfl, rfl⟩ | ⟨rfl, rfl⟩
      · exact ⟨rfl, by omega, by omega⟩
      · exact ⟨rfl, by omega, by omega⟩
    · exact ⟨rfl, by omega, by omega⟩
  · rintro ⟨rfl, hb1, hb2⟩
    by_cases hlt : b - S.column < S.n - S.n % 2
    · left
      refine ⟨2 * ((b - S.column) / 2), ?_, ?_⟩
      · rw [List.mem_range']
        exact ⟨(b - S.column) / 2, by omega, by omega⟩
      · by_cases hpar : (b - S.column) % 2 = 0
        · exact Or.inl ⟨rfl, by omega⟩
        · exact Or.inr ⟨rfl, by omega⟩
    · exact Or.inr ⟨by omega, rfl, by omega⟩

theorem assignDefault_writes (S : DenseSubmatrix) (B : Mat) :
    writesCanon (srcVal S B) (fun A => assignDefault S A B) (inView S) := by
  have h := writesCanon_foldl (srcVal S B)
    (fun i acc => assignDefaultRow S B i acc)
    (fun i a b => a = S.row + i ∧ S.column ≤ b ∧ b < S.column + S.n)
    (List.range S.m) (fun i _ => assignDefaultRow_writes S B i)
  refine writesCanon_congr h ?_
  intro a b
  constructor
  · rintro ⟨i, hi, rfl, hb1, hb2⟩
    rw [List.mem_range] at hi
    exact ⟨by omega, by omega, hb1, hb2⟩
  · rintro ⟨ha1, ha2, hb1, hb2⟩
    exact ⟨a - S.row, List.mem_range.mpr (by omega), by omega, hb1, hb2⟩

theorem load_srcVal (S : DenseSubmatrix) (B : Mat) (i j : Nat) :
    ∀ b, S.column + j ≤ b → b < S.column + j + ITsize →
      B.load i j (b - (S.column + j)) = srcVal S B (S.row + i) b := by
  intro b hb1 _
  show B.v i (j + (b - (S.column + j))) = B.v (S.row + i - S.row) (b - S.column)
  have h1 : j + (b - (S.column + j)) = b - S.column := by omega
  have h2 : S.row + i - S.row = i := by omega
  rw [h1, h2]

theorem assignStreamRow_writes (S : DenseSubmatrix) (B : Mat) (i : Nat) :
    writesCanon (srcVal S B) (fun A => assignStreamRow S B i A)
      (fun a b => ∃ j ∈ List.range' 0 ((S.n + ITsize - 1) / ITsize) ITsize,
        a = S.row + i ∧ S.column + j ≤ b ∧ b < S.column + j + ITsize) :=
  writesCanon_foldl (srcVal S B)
    (fun j a => a.storeuW (S.row + i) (S.column + j) (B.load i j))
    (fun j a b => a = S.row + i ∧ S.column + j ≤ b ∧ b < S.column + j + ITsize)
    (List.range' 0 ((S.n + ITsize - 1) / ITsize) ITsize)
    (fun j _ => writesCanon_storeuW _ _ _ _ (load_srcVal S B i j))

theorem assignVecStream_view (S : DenseSubmatrix) (A B : Mat) (i j : Nat)
    (hi : i < S.m) (hj : j < S.n) :
    (assignVecStream S A B).v (S.row + i) (S.column + j) = B.v i j := by
  have h := writesCanon_foldl (srcVal S B)
    (fun i acc => assignStreamRow S B i acc)
    (fun i' a b => ∃ j' ∈ List.range' 0 ((S.n + ITsize - 1) / ITsize) ITsize,
      a = S.row + i' ∧ S.column + j' ≤ b ∧ b < S.column + j' + ITsize)
    (List.range S.m) (fun i' _ => assignStreamRow_writes S B i')
  have hval : (assignVecStream S A B).v (S.row + i) (S.column + j) =
      srcVal S B (S.row + i) (S.column + j) :=
    (h A (S.row + i) (S.column + j)).1
      ⟨i, List.mem_range.mpr hi, ITsize * (j / ITsize),
        List.mem_range'.mpr ⟨j / ITsize, by simp only [ITsize]; omega,
          by simp only [ITsize]; omega⟩,
        rfl, by simp only [ITsize]; omega, by simp only [ITsize]; omega⟩
  rw [hval]
  show B.v (S.row + i - S.row) (S.column + j - S.column) = B.v i j
  have h1 : S.row + i - S.row = i := by omega
  have h2 : S.column + j - S.column = j := by omega
  rw [h1, h2]

theorem assignUnalignedRow_writes (S : DenseSubmatrix) (B : Mat) (i : Nat)
    (hrest : S.rest ≤ ITsize) :
    writesCanon (srcVal S B) (fun A => assignUnalignedRow S B i A)
      (fun a b =>
        (∃ j ∈ List.range' 0 ((S.n - S.n % (ITsize * 4)) / (ITsize * 4)) (ITsize * 4),
          (((a = S.row + i ∧ S.column + j ≤ b ∧ b < S.column + j + ITsize) ∨
            (a = S.row + i ∧ S.column + (j + ITsize) ≤ b ∧
              b < S.column + (j + ITsize) + ITsize)) ∨
            (a = S.row + i ∧ S.column + (j + ITsize * 2) ≤ b ∧
              b < S.column + (j + ITsize * 2) + ITsize)) ∨
            (a = S.row + i ∧ S.column + (j + ITsize * 3) ≤ b ∧
              b < S.column + (j + ITsize * 3) + ITsize)) ∨
        (∃ j ∈ List.range' (S.n - S.n % (ITsize * 4))
            ((S.n - (S.n - S.n % (ITsize * 4)) + ITsize - 1) / ITsize) ITsize,
          a = S.row + i ∧ S.column + j ≤ b ∧
            b < S.column + j +
              (if S.aligned = true ∨ j ≠ S.final then ITsize else S.rest))) := by
  have hmain := writesCanon_foldl (srcVal S B)
    (fun j a =>
      (((a.storeuW (S.row + i) (S.column + j) (B.load i j)).storeuW
            (S.row + i) (S.column + (j + ITsize)) (B.load i (j + ITsize))).storeuW
          (S.row + i) (S.column + (j + ITsize * 2)) (B.load i (j + ITsize * 2))).storeuW
        (S.row + i) (S.column + (j + ITsize * 3)) (B.load i (j + ITsize * 3)))
    (fun j a b =>
      (((a = S.row + i ∧ S.column + j ≤ b ∧ b < S.column + j + ITsize) ∨
        (a = S.row + i ∧ S.column + (j + ITsize) ≤ b ∧
          b < S.column + (j + ITsize) + ITsize)) ∨
        (a = S.row + i ∧ S.column + (j + ITsize * 2) ≤ b ∧
          b < S.column + (j + ITsize * 2) + ITsize)) ∨
        (a = S.row + i ∧ S.column + (j + ITsize * 3) ≤ b ∧
          b < S.column + (j + ITsize * 3) + ITsize))
    (List.range' 0 ((S.n - S.n % (ITsize * 4)) / (ITsize * 4)) (ITsize * 4))
    (fun j _ =>
      writesCanon_comp
        (writesCanon_comp
          (writesCanon_comp
            (writesCanon_storeuW _ _ _ _ (load_srcVal S B i j))
            (writesCanon_storeuW _ _ _ _ (load_srcVal S B i (j + ITsize))))
          (writesCanon_storeuW _ _ _ _ (load_srcVal S B i (j + ITsize * 2))))
        (writesCanon_storeuW _ _ _ _ (load_srcVal S B i (j + ITsize * 3))))
  have htail := writesCanon_foldl (srcVal S B)
    (fun j a => S.storeuSub a i j (B.load i j))
    (fun j a b => a = S.row + i ∧ S.column + j ≤ b ∧
      b < S.column + j + (if S.aligned = true ∨ j ≠ S.final then ITsize else S.rest))
    (List.range' (S.n - S.n % (ITsize * 4))
      ((S.n - (S.n - S.n % (ITsize * 4)) + ITsize - 1) / ITsize) ITsize)
    (fun j _ => writesCanon_storeuSub _ S i j _ hrest (load_srcVal S B i j))
  have hcomp := writesCanon_comp hmain htail
  exact hcomp

theorem assignVecUnaligned_view (S : DenseSubmatrix) (A B : Mat) (i j : Nat)
    (hi : i < S.m) (hj : j < S.n)
    (hwr : S.rest = S.n % ITsize) (hwf : S.final = S.n - S.n % ITsize) :
    (assignVecUnaligned S A B).v (S.row + i) (S.column + j) = B.v i j := by
  have hrest : S.rest ≤ ITsize := by simp only [ITsize] at hwr ⊢; omega
  have h := writesCanon_foldl (srcVal S B)
    (fun i acc => assignUnalignedRow S B i acc) _
    (List.range S.m) (fun i' _ => assignUnalignedRow_writes S B i' hrest)
  have hval : (assignVecUnaligned S A B).v (S.row + i) (S.column + j) =
      srcVal S B (S.row + i) (S.column + j) := by
    apply (h A (S.row + i) (S.column + j)).1
    refine ⟨i, List.mem_range.mpr hi, ?_⟩
    by_cases hmainc : j < S.n - S.n % (ITsize * 4)
    · left
      refine ⟨ITsize * 4 * (j / (ITsize * 4)), List.mem_range'.mpr
        ⟨j / (ITsize * 4), by simp only [ITsize] at hmainc ⊢; omega,
          by simp only [ITsize]; omega⟩, ?_⟩
      by_cases h0 : j % (ITsize * 4) < ITsize
      · exact Or.inl (Or.inl (Or.inl ⟨rfl, by simp only [ITsize] at h0 ⊢; omega,
          by simp only [ITsize] at h0 ⊢; omega⟩))
      · by_cases h1 : j % (ITsize * 4) < ITsize * 2
        · exact Or.inl (Or.inl (Or.inr ⟨rfl,
            by simp only [ITsize] at h0 h1 ⊢; omega,
            by simp only [ITsize] at h0 h1 ⊢; omega⟩))
        · by_cases h2 : j % (ITsize * 4) < ITsize * 3
          · exact Or.inl (Or.inr ⟨rfl,
              by simp only [ITsize] at h1 h2 ⊢; omega,
              by simp only [ITsize] at h1 h2 ⊢; omega⟩)
          · exact Or.inr ⟨rfl,
              by simp only [ITsize] at h2 ⊢; omega,
              by simp only [ITsize] at h2 ⊢; omega⟩
    · right
      refine ⟨(S.n - S.n % (ITsize * 4)) +
          ITsize * ((j - (S.n - S.n % (ITsize * 4))) / ITsize),
        List.mem_range'.mpr
          ⟨(j - (S.n - S.n % (ITsize * 4))) / ITsize,
            by simp only [ITsize] at hmainc ⊢; omega, rfl⟩,
        rfl, by simp only [ITsize] at hmainc ⊢; omega, ?_⟩
      by_cases hsplit : S.aligned = true ∨
          (S.n - S.n % (ITsize * 4)) +
            ITsize * ((j - (S.n - S.n % (ITsize * 4))) / ITsize) ≠ S.final
      · rw [if_pos hsplit]
        simp only [ITsize] at hmainc ⊢
        omega
      · rw [if_neg hsplit]
        push_neg at hsplit
        rw [hsplit.2, hwf, hwr]
        simp only [ITsize] at hmainc ⊢
        omega
  rw [hval]
  show B.v (S.row + i - S.row) (S.column + j - S.column) = B.v i j
  have h1 : S.row + i - S.row = i := by omega
  have h2 : S.column + j - S.column = j := by omega
  rw [h1, h2]

theorem resetRow_writes (S : DenseSubmatrix) (i : Nat) :
    writesCanon (fun _ _ => 0) (fun A => resetRow S i A)
      (fun a b => a = i ∧ S.column ≤ b ∧ b < S.column + S.n) := by
  have h := writesCanon_foldl (fun _ _ => (0 : Int)) (fun j a => a.update i j 0)
    (fun j a b => a = i ∧ b = j) (List.range' S.column S.n 1)
    (fun j _ => writesCanon_update _ i j 0 rfl)
  refine writesCanon_congr h ?_
  intro a b
  constructor
  · rintro ⟨j, hj, rfl, rfl⟩
    rw [List.mem_range'] at hj
    obtain ⟨t, ht, rfl⟩ := hj
    exact ⟨rfl, by omega, by omega⟩
  · rintro ⟨rfl, hb1, hb2⟩
    exact ⟨b, List.mem_range'.mpr ⟨b - S.column, by omega, by omega⟩, rfl, rfl⟩

theorem resetView_writes (S : DenseSubmatrix) :
    writesCanon (fun _ _ => 0) (fun A => S.resetView A) (inView S) := by
  have h := writesCanon_foldl (fun _ _ => (0 : Int)) (fun i acc => resetRow S i acc)
    (fun i a b => a = i ∧ S.column ≤ b ∧ b < S.column + S.n)
    (List.range' S.row S.m 1) (fun i _ => resetRow_writes S i)
  refine writesCanon_congr h ?_
  intro a b
  constructor
  · rintro ⟨i, hi, rfl, hb1, hb2⟩
    rw [List.mem_range'] at hi
    obtain ⟨t, ht, rfl⟩ := hi
    exact ⟨by omega, by omega, hb1, hb2⟩
  · rintro ⟨ha1, ha2, hb1, hb2⟩
    exact ⟨a, List.mem_range'.mpr ⟨a - S.row, by omega, by omega⟩, rfl, hb1, hb2⟩

theorem sparseFold_not_written (S : DenseSubmatrix) :
    ∀ (l : List (Nat × Nat × Int)) (A : Mat) (x y : Nat),
      (∀ e ∈ l, ¬(x = S.row + e.1 ∧ y = S.column + e.2.1)) →
      (l.foldl (fun acc e =>
        acc.update (S.row + e.1) (S.column + e.2.1) e.2.2) A).v x y = A.v x y := by
  intro l
  induction l with
  | nil => intro A x y _; rfl
  | cons e l ih =>
      intro A x y hne
      simp only [List.foldl_cons]
      rw [ih _ x y (fun e' he' => hne e' (List.mem_cons_of_mem _ he'))]
      show (if x = S.row + e.1 ∧ y = S.column + e.2.1 then e.2.2 else A.v x y) = A.v x y
      rw [if_neg (hne e (List.mem_cons_self e l))]

theorem sparseFold_written (S : DenseSubmatrix) :
    ∀ (l : List (Nat × Nat × Int)) (A : Mat) (i j : Nat) (val : Int),
      (i, j, val) ∈ l →
      l.Pairwise (fun e e' => (e.1, e.2.1) ≠ (e'.1, e'.2.1)) →
      (l.foldl (fun acc e =>
        acc.update (S.row + e.1) (S.column + e.2.1) e.2.2) A).v
          (S.row + i) (S.column + j) = val := by
  intro l
  induction l with
  | nil => intro A i j val h _; exact absurd h (List.not_mem_nil _)
  | cons e l ih =>
      intro A i j val hmem hpw
      simp only [List.foldl_cons]
      rcases List.mem_cons.mp hmem with heq | hmem2
      · have hne : ∀ e' ∈ l, ¬(S.row + i = S.row + e'.1 ∧
            S.column + j = S.column + e'.2.1) := by
          rintro e' he' ⟨h1, h2⟩
          have hd := (List.pairwise_cons.mp hpw).1 e' he'
          rw [← heq] at hd
          apply hd
          rw [show e'.1 = i by omega, show e'.2.1 = j by omega]
        rw [sparseFold_not_written S l _ _ _ hne]
        rw [← heq]
        show (if S.row + i = S.row + i ∧ S.column + j = S.column + j
          then val else A.v (S.row + i) (S.column + j)) = val
        rw [if_pos ⟨rfl, rfl⟩]
      · exact ih _ i j val hmem2 (List.pairwise_cons.mp hpw).2

theorem adjustCapacity_ge (n : Nat) : n ≤ adjustCapacity n := by
  simp only [adjustCapacity, ITsize]
  omega

theorem create_Inv (g : Nat → Int) (n : Nat) : (DynamicVector.create g n).Inv := by
  refine ⟨adjustCapacity_ge n, ?_⟩
  intro i h1 h2
  show (if n ≤ i ∧ i < adjustCapacity n then (0 : Int) else g i) = 0
  rw [if_pos ⟨h1, h2⟩]

theorem createInit_Inv (g : Nat → Int) (n : Nat) (init : Int) :
    (DynamicVector.createInit g n init).Inv := by
  refine ⟨adjustCapacity_ge n, ?_⟩
  intro i h1 h2
  dsimp only [DynamicVector.createInit] at h1 h2 ⊢
  rw [if_neg (by omega), if_pos h2]

theorem resize_Inv (d : DynamicVector) (hd : d.Inv) (g : Nat → Int) (n : Nat)
    (p : Bool) : (d.resize g n p).Inv := by
  obtain ⟨hcap, hpad⟩ := hd
  unfold DynamicVector.resize
  by_cases h1 : n > d.capacity
  · rw [if_pos h1]
    refine ⟨adjustCapacity_ge n, ?_⟩
    intro i hi1 hi2
    dsimp only at hi1 hi2 ⊢
    rw [if_neg (by rintro ⟨-, hlt⟩; omega), if_pos ⟨by omega, hi2⟩]
  · rw [if_neg h1]
    by_cases h2 : n < d.size
    · rw [if_pos h2]
      constructor
      · show n ≤ d.capacity
        omega
      · intro i hi1 hi2
        dsimp only at hi1 hi2 ⊢
        by_cases h3 : i < d.size
        · rw [if_pos ⟨hi1, h3⟩]
        · rw [if_neg (by rintro ⟨-, hlt⟩; omega)]
          exact hpad i (by omega) hi2
    · rw [if_neg h2]
      constructor
      · show n ≤ d.capacity
        omega
      · intro i hi1 hi2
        dsimp only at hi1 hi2 ⊢
        exact hpad i (by omega) hi2

theorem reserve_Inv (d : DynamicVector) (hd : d.Inv) (g : Nat → Int)
    (n : Nat) : (d.reserve g n).Inv := by
  obtain ⟨hcap, hpad⟩ := hd
  unfold DynamicVector.reserve
  by_cases h1 : n > d.capacity
  · rw [if_pos h1]
    constructor
    · show d.size ≤ adjustCapacity n
      have := adjustCapacity_ge n
      omega
    · intro i hi1 hi2
      dsimp only at hi1 hi2 ⊢
      rw [if_neg (by omega), if_pos hi2]
  · rw [if_neg h1]
    exact ⟨hcap, hpad⟩

theorem set_Inv (d : DynamicVector) (hd : d.Inv) (i : Nat) (x : Int)
    (hi : i < d.size) : (d.set i x).Inv := by
  obtain ⟨hcap, hpad⟩ := hd
  refine ⟨hcap, ?_⟩
  intro k hk1 hk2
  dsimp only [DynamicVector.set] at hk1 hk2 ⊢
  rw [Function.update_apply, if_neg (by omega)]
  exact hpad k hk1 hk2

/-- A concrete view record used as a test fixture: the result of
`submatrix(mat10, 0, 0, 4, 4)`. -/
def exView : DenseSubmatrix := ⟨0, 0, 4, 4, 0, 4, true⟩

/-- A concrete view record used as a test fixture: the result of
`submatrix(mat10, 1, 1, 4, 4)`. -/
def exView2 : DenseSubmatrix := ⟨1, 1, 4, 4, 0, 4, false⟩

/-- A concrete 3x5 view record with an unaligned tail (`n_ % IT::size = 1`),
used as a test fixture. -/
def exView35 : DenseSubmatrix := ⟨1, 1, 3, 5, 1, 4, false⟩

/-- A concrete 3x5 dense source matrix used as a test fixture. -/
def exB35 : Mat := ⟨3, 5, fun i j => (i * 7 + j : Nat)⟩

/-- A concrete 4x4 dense source matrix used as a test fixture. -/
def exB44 : Mat := ⟨4, 4, fun i j => (i + j : Nat)⟩

/-- A concrete 3x4 dense matrix (a shape mismatch for a 4x4 view), used as a
test fixture. -/
def exB34 : Mat := ⟨3, 4, fun i j => (i + j : Nat)⟩

/-- A concrete 4x4 sparse matrix with exactly 3 stored entries, used as a
test fixture. -/
def exSparse : SparseMat := ⟨4, 4, [(0, 1, 5), (2, 2, 7), (3, 0, 9)]⟩

/-- A concrete DynamicVector of size 5 (capacity 8 after width rounding,
with the padding region zeroed), used as a test fixture. -/
def exVec : DynamicVector :=
  ⟨5, 8, fun k => if k < 5 then ((k + 1 : Nat) : Int) else 0⟩

/-- C1: for every dense matrix and every valid view parameters
`(row, column, numRows, numCols)` within the matrix bounds, construction
succeeds, the view reports the requested extents, and element access `(i,j)`
of the view equals the underlying matrix element `(row+i, column+j)`; in
particular, for the 10x10 row-major matrix with `A(i,j)=i*10+j`,
`submatrix(A,2,3,4,4)` reports `rows()==4`, `columns()==4`, `(0,0)==23` and
`(3,3)==56`. -/
theorem C1_view_access (A : Mat) (row column m n i j : Nat)
    (hrow : row + m ≤ A.rows) (hcol : column + n ≤ A.cols)
    (hi : i < m) (hj : j < n) :
    (∃ S : DenseSubmatrix, mkDenseSubmatrix A row column m n = Except.ok S ∧
      S.rowsFn = m ∧ S.columnsFn = n ∧
      S.app A i j = A.v (row + i) (column + j)) ∧
    (∃ T : DenseSubmatrix, mkDenseSubmatrix mat10 2 3 4 4 = Except.ok T ∧
      T.rowsFn = 4 ∧ T.columnsFn = 4 ∧
      T.app mat10 0 0 = 23 ∧ T.app mat10 3 3 = 56) := by
  constructor
  · have hmk : mkDenseSubmatrix A row column m n = Except.ok
        { row := row, column := column, m := m, n := n,
          rest := n % ITsize, final := n - n % ITsize,
          aligned := (column % ITsize == 0) &&
            ((column + n == A.cols) || (n % ITsize == 0)) } := by
      unfold mkDenseSubmatrix
      rw [if_neg (by omega)]
    exact ⟨_, hmk, rfl, rfl, rfl⟩
  · have hmk : mkDenseSubmatrix mat10 2 3 4 4 = Except.ok
        { row := 2, column := 3, m := 4, n := 4,
          rest := 4 % ITsize, final := 4 - 4 % ITsize,
          aligned := (3 % ITsize == 0) &&
            ((3 + 4 == mat10.cols) || (4 % ITsize == 0)) } := by
      unfold mkDenseSubmatrix
      rw [if_neg (by decide)]
    exact ⟨_, hmk, rfl, rfl, by decide, by decide⟩

/-- Witness for C1 at the concrete scenario input. -/
theorem C1_view_access_witness :
    (∃ S : DenseSubmatrix, mkDenseSubmatrix mat10 2 3 4 4 = Except.ok S ∧
      S.rowsFn = 4 ∧ S.columnsFn = 4 ∧
      S.app mat10 3 3 = mat10.v (2 + 3) (3 + 3)) ∧
    (∃ T : DenseSubmatrix, mkDenseSubmatrix mat10 2 3 4 4 = Except.ok T ∧
      T.rowsFn = 4 ∧ T.columnsFn = 4 ∧
      T.app mat10 0 0 = 23 ∧ T.app mat10 3 3 = 56) :=
  C1_view_access mat10 2 3 4 4 3 3 (by decide) (by decide) (by decide) (by decide)

/-- C4: constructing a view with `row+numRows` or `column+numCols` exceeding
the matrix dimensions fails with the invalid-argument error
"Invalid submatrix specification" every time; in-bounds construction
succeeds and the view keeps exactly the requested offsets and extents,
never silently truncated. -/
theorem C4_constructor_validation (A : Mat) (row column m n : Nat) :
    (row + m ≤ A.rows ∧ column + n ≤ A.cols →
      ∃ S : DenseSubmatrix, mkDenseSubmatrix A row column m n = Except.ok S ∧
        S.row = row ∧ S.column = column ∧ S.m = m ∧ S.n = n) ∧
    (A.rows < row + m ∨ A.cols < column + n →
      mkDenseSubmatrix A row column m n =
        Except.error "Invalid submatrix specification") := by
  constructor
  · rintro ⟨h1, h2⟩
    have hmk : mkDenseSubmatrix A row column m n = Except.ok
        { row := row, column := column, m := m, n := n,
          rest := n % ITsize, final := n - n % ITsize,
          aligned := (column % ITsize == 0) &&
            ((column + n == A.cols) || (n % ITsize == 0)) } := by
      unfold mkDenseSubmatrix
      rw [if_neg (by omega)]
    exact ⟨_, hmk, rfl, rfl, rfl, rfl⟩
  · intro h
    unfold mkDenseSubmatrix
    rw [if_pos (by omega)]

/-- Witness for C4: an in-bounds and an out-of-bounds instance. -/
theorem C4_constructor_validation_witness :
    (∃ S : DenseSubmatrix, mkDenseSubmatrix mat10 2 3 4 4 = Except.ok S ∧
      S.row = 2 ∧ S.column = 3 ∧ S.m = 4 ∧ S.n = 4) ∧
    mkDenseSubmatrix mat10 8 0 4 4 =
      Except.error "Invalid submatrix specification" :=
  ⟨(C4_constructor_validation mat10 2 3 4 4).1 (by decide),
   (C4_constructor_validation mat10 8 0 4 4).2 (by decide)⟩

/-- C10: a submatrix view of a view accumulates the offsets and validates
bounds only against the root matrix: for every outer view `V` over matrix
`A`, `submatrix(V,row,column,m,n)` succeeds whenever
`V.row+row+m <= A.rows` and `V.column+column+n <= A.cols` (the inner
parameters are never checked against the outer view's own extents, which do
not appear in the success condition at all), and fails against the root
bounds otherwise. -/
theorem C10_nested_view_bounds (A : Mat) (V : DenseSubmatrix)
    (row column m n : Nat) :
    (V.row + row + m ≤ A.rows ∧ V.column + column + n ≤ A.cols →
      ∃ S : DenseSubmatrix, submatrixOfView A V row column m n = Except.ok S ∧
        S.row = V.row + row ∧ S.column = V.column + column ∧
        S.m = m ∧ S.n = n) ∧
    (A.rows < V.row + row + m ∨ A.cols < V.column + column + n →
      submatrixOfView A V row column m n =
        Except.error "Invalid submatrix specification") := by
  constructor
  · rintro ⟨h1, h2⟩
    have hmk : mkDenseSubmatrix A (V.row + row) (V.column + column) m n =
        Except.ok
          { row := V.row + row, column := V.column + column, m := m, n := n,
            rest := n % ITsize, final := n - n % ITsize,
            aligned := ((V.column + column) % ITsize == 0) &&
              ((V.column + column + n == A.cols) || (n % ITsize == 0)) } := by
      unfold mkDenseSubmatrix
      rw [if_neg (by omega)]
    exact ⟨_, hmk, rfl, rfl, rfl, rfl⟩
  · intro h
    unfold submatrixOfView mkDenseSubmatrix
    rw [if_pos (by omega)]

/-- Witness for C10: the inner parameters `(1,1,5,5)` exceed the outer 2x2
view's own extents but stay inside the root 10x10 matrix, and construction
succeeds; growing them past the root bounds fails. -/
theorem C10_nested_view_bounds_witness :
    (∃ S : DenseSubmatrix,
      submatrixOfView mat10 ⟨0, 0, 2, 2, 2, 0, false⟩ 1 1 5 5 = Except.ok S ∧
        S.row = 0 + 1 ∧ S.column = 0 + 1 ∧ S.m = 5 ∧ S.n = 5) ∧
    submatrixOfView mat10 ⟨0, 0, 2, 2, 2, 0, false⟩ 1 1 10 10 =
      Except.error "Invalid submatrix specification" :=
  ⟨(C10_nested_view_bounds mat10 ⟨0, 0, 2, 2, 2, 0, false⟩ 1 1 5 5).1 (by decide),
   (C10_nested_view_bounds mat10 ⟨0, 0, 2, 2, 2, 0, false⟩ 1 1 10 10).2 (by decide)⟩

/-- C2: assigning a source view `T` to a destination view `S` over the same
underlying matrix (identity or overlapping regions) produces exactly the
contents obtained by first copying the source region into an independent
temporary and then assigning that temporary element by element: because the
source aliases the destination's underlying storage, it is materialized into
a temporary before any destination element is written. -/
theorem C2_view_alias_assign (A : Mat) (S T : DenseSubmatrix)
    (hm : S.m = T.m) (hn : S.n = T.n) :
    ∃ A2 : Mat, S.opAssignView T A = Except.ok A2 ∧
      ∀ x y, A2.v x y = (opAssignViewSpec S T A).v x y := by
  unfold DenseSubmatrix.opAssignView
  by_cases hid : S.row = T.row ∧ S.column = T.column
  · rw [if_pos hid]
    refine ⟨A, rfl, ?_⟩
    intro x y
    unfold opAssignViewSpec
    dsimp only
    by_cases hIn : S.row ≤ x ∧ x < S.row + S.m ∧ S.column ≤ y ∧ y < S.column + S.n
    · rw [if_pos hIn]
      obtain ⟨h1, h2⟩ := hid
      obtain ⟨hx1, hx2, hy1, hy2⟩ := hIn
      rw [show T.row + (x - S.row) = x by omega,
          show T.column + (y - S.column) = y by omega]
    · rw [if_neg hIn]
  · rw [if_neg hid, if_neg (by omega)]
    refine ⟨assignDefault S A (viewTemp T A), rfl, ?_⟩
    intro x y
    have hw := assignDefault_writes S (viewTemp T A) A x y
    unfold opAssignViewSpec
    dsimp only
    by_cases hIn : S.row ≤ x ∧ x < S.row + S.m ∧ S.column ≤ y ∧ y < S.column + S.n
    · have hval : (assignDefault S A (viewTemp T A)).v x y =
          srcVal S (viewTemp T A) x y := hw.1 hIn
      rw [hval, if_pos hIn]
      rfl
    · have hval : (assignDefault S A (viewTemp T A)).v x y = A.v x y :=
        hw.2 hIn
      rw [hval, if_neg hIn]

/-- Witness for C2 at the concrete scenario `submatrix(A,0,0,4,4) =
submatrix(A,1,1,4,4)` over the 10x10 matrix. -/
theorem C2_view_alias_assign_witness :
    ∃ A2 : Mat, DenseSubmatrix.opAssignView exView exView2 mat10 =
        Except.ok A2 ∧
      ∀ x y, A2.v x y = (opAssignViewSpec exView exView2 mat10).v x y :=
  C2_view_alias_assign mat10 exView exView2 rfl rfl

/-- C3: for a shape-matched dense source of the same storage order, the
width-aware vectorized assignment kernel (both its streaming-store branch
and its unaligned-store branch with the remainder tail) writes exactly the
same destination contents on the view as the scalar-unrolled default
assignment kernel: every destination element `(i,j)` of the view ends equal
to source `(i,j)` under either kernel. -/
theorem C3_vectorized_matches_default (S : DenseSubmatrix) (A B : Mat)
    (stream : Bool) (i j : Nat)
    (hm : B.rows = S.m) (hn : B.cols = S.n)
    (hwr : S.rest = S.n % ITsize) (hwf : S.final = S.n - S.n % ITsize)
    (hi : i < S.m) (hj : j < S.n) :
    (assignVectorized S A B stream).v (S.row + i) (S.column + j) = B.v i j ∧
    (assignDefault S A B).v (S.row + i) (S.column + j) = B.v i j ∧
    (assignVectorized S A B stream).v (S.row + i) (S.column + j) =
      (assignDefault S A B).v (S.row + i) (S.column + j) := by
  have hdef : (assignDefault S A B).v (S.row + i) (S.column + j) = B.v i j := by
    have h : (assignDefault S A B).v (S.row + i) (S.column + j) =
        srcVal S B (S.row + i) (S.column + j) :=
      (assignDefault_writes S B A (S.row + i) (S.column + j)).1
        ⟨by omega, by omega, by omega, by omega⟩
    rw [h]
    show B.v (S.row + i - S.row) (S.column + j - S.column) = B.v i j
    rw [show S.row + i - S.row = i by omega,
        show S.column + j - S.column = j by omega]
  have hvec : (assignVectorized S A B stream).v (S.row + i) (S.column + j) =
      B.v i j := by
    unfold assignVectorized
    by_cases hs : stream = true
    · rw [if_pos hs]
      exact assignVecStream_view S A B i j hi hj
    · rw [if_neg hs]
      exact assignVecUnaligned_view S A B i j hi hj hwr hwf
  exact ⟨hvec, hdef, by rw [hvec, hdef]⟩

/-- Witness for C3: a 3x5 view with an unaligned remainder tail, exercised
through both the streaming and the non-streaming branch. -/
theorem C3_vectorized_matches_default_witness :
    ((assignVectorized exView35 mat10 exB35 false).v (exView35.row + 2)
        (exView35.column + 4) = exB35.v 2 4 ∧
      (assignDefault exView35 mat10 exB35).v (exView35.row + 2)
        (exView35.column + 4) = exB35.v 2 4 ∧
      (assignVectorized exView35 mat10 exB35 false).v (exView35.row + 2)
          (exView35.column + 4) =
        (assignDefault exView35 mat10 exB35).v (exView35.row + 2)
          (exView35.column + 4)) ∧
    ((assignVectorized exView35 mat10 exB35 true).v (exView35.row + 2)
        (exView35.column + 4) = exB35.v 2 4 ∧
      (assignDefault exView35 mat10 exB35).v (exView35.row + 2)
        (exView35.column + 4) = exB35.v 2 4 ∧
      (assignVectorized exView35 mat10 exB35 true).v (exView35.row + 2)
          (exView35.column + 4) =
        (assignDefault exView35 mat10 exB35).v (exView35.row + 2)
          (exView35.column + 4)) :=
  ⟨C3_vectorized_matches_default exView35 mat10 exB35 false 2 4
      (by decide) (by decide) (by decide) (by decide) (by decide) (by decide),
   C3_vectorized_matches_default exView35 mat10 exB35 true 2 4
      (by decide) (by decide) (by decide) (by decide) (by decide) (by decide)⟩

/-- C5: assignment and compound addition/subtraction assignment of a matrix
whose shape differs from the view's fail with the invalid-argument error
"Matrix sizes do not match", with the underlying matrix completely unchanged
(the error carries the state at the throw point, which is the input state,
because the shape is validated before any element is written); with matching
shapes the operations succeed. -/
theorem C5_assign_shape_check (S : DenseSubmatrix) (A B : Mat) :
    (B.rows ≠ S.m ∨ B.cols ≠ S.n →
      S.opAssignDense A B = Except.error ("Matrix sizes do not match", A) ∧
      S.opAddAssign A B = Except.error ("Matrix sizes do not match", A) ∧
      S.opSubAssign A B = Except.error ("Matrix sizes do not match", A)) ∧
    (B.rows = S.m ∧ B.cols = S.n →
      S.opAssignDense A B = Except.ok (assignDefault S A B) ∧
      S.opAddAssign A B = Except.ok (addAssignDefault S A B) ∧
      S.opSubAssign A B = Except.ok (subAssignDefault S A B)) := by
  constructor
  · intro h
    refine ⟨?_, ?_, ?_⟩
    · unfold DenseSubmatrix.opAssignDense
      rw [if_pos (by omega)]
    · unfold DenseSubmatrix.opAddAssign
      rw [if_pos (by omega)]
    · unfold DenseSubmatrix.opSubAssign
      rw [if_pos (by omega)]
  · rintro ⟨h1, h2⟩
    refine ⟨?_, ?_, ?_⟩
    · unfold DenseSubmatrix.opAssignDense
      rw [if_neg (by omega)]
    · unfold DenseSubmatrix.opAddAssign
      rw [if_neg (by omega)]
    · unfold DenseSubmatrix.opSubAssign
      rw [if_neg (by omega)]

/-- Witness for C5: a 3x4 source mismatches a 4x4 view and every operator
reports the error with the matrix unchanged; the 4x4 source succeeds. -/
theorem C5_assign_shape_check_witness :
    (exView.opAssignDense mat10 exB34 =
        Except.error ("Matrix sizes do not match", mat10) ∧
      exView.opAddAssign mat10 exB34 =
        Except.error ("Matrix sizes do not match", mat10) ∧
      exView.opSubAssign mat10 exB34 =
        Except.error ("Matrix sizes do not match", mat10)) ∧
    (exView.opAssignDense mat10 exB44 =
        Except.ok (assignDefault exView mat10 exB44) ∧
      exView.opAddAssign mat10 exB44 =
        Except.ok (addAssignDefault exView mat10 exB44) ∧
      exView.opSubAssign mat10 exB44 =
        Except.ok (subAssignDefault exView mat10 exB44)) :=
  ⟨(C5_assign_shape_check exView mat10 exB34).1 (Or.inl (by decide)),
   (C5_assign_shape_check exView mat10 exB44).2 ⟨by decide, by decide⟩⟩

/-- C6: for the numeric element type, the invariant `capacity >= size` with
an all-default padding region `[size, capacity)` holds after both
constructors and is preserved by `resize` (with or without preserve),
`reserve`, `extend`, `clear`, `swap`, and elementwise writes below the
logical size. -/
theorem C6_padding_invariant (g : Nat → Int) (d e : DynamicVector)
    (n i : Nat) (p : Bool) (x : Int)
    (hd : d.Inv) (he : e.Inv) (hi : i < d.size) :
    (DynamicVector.create g n).Inv ∧
    (DynamicVector.createInit g n x).Inv ∧
    (d.resize g n p).Inv ∧
    (d.reserve g n).Inv ∧
    (d.extend g n p).Inv ∧
    (d.clear g).Inv ∧
    (d.swapVec e).1.Inv ∧
    (d.swapVec e).2.Inv ∧
    (d.set i x).Inv :=
  ⟨create_Inv g n, createInit_Inv g n x, resize_Inv d hd g n p,
   reserve_Inv d hd g n, resize_Inv d hd g (d.size + n) p,
   resize_Inv d hd g 0 false, he, hd, set_Inv d hd i x hi⟩

/-- Witness for C6 at a concrete vector state. -/
theorem C6_padding_invariant_witness :
    (DynamicVector.create (fun _ => 7) 7).Inv ∧
    (DynamicVector.createInit (fun _ => 7) 7 5).Inv ∧
    (exVec.resize (fun _ => 7) 7 true).Inv ∧
    (exVec.reserve (fun _ => 7) 7).Inv ∧
    (exVec.extend (fun _ => 7) 7 true).Inv ∧
    (exVec.clear (fun _ => 7)).Inv ∧
    (exVec.swapVec exVec).1.Inv ∧
    (exVec.swapVec exVec).2.Inv ∧
    (exVec.set 0 5).Inv :=
  C6_padding_invariant (fun _ => 7) exVec exVec 7 0 true 5
    ⟨by decide, fun k h1 h2 => by
      dsimp only [exVec] at h1 h2
      show (if k < 5 then ((k + 1 : Nat) : Int) else 0) = 0
      rw [if_neg (by omega)]⟩
    ⟨by decide, fun k h1 h2 => by
      dsimp only [exVec] at h1 h2
      show (if k < 5 then ((k + 1 : Nat) : Int) else 0) = 0
      rw [if_neg (by omega)]⟩
    (by decide)

/-- C7: a DynamicVector constructed with logical size `n` has capacity equal
to the smallest multiple of the SIMD width `IT::size` that is at least `n`,
and the padding tail `[n, capacity)` is filled with the default value at
construction. -/
theorem C7_capacity_rounding (g : Nat → Int) (n : Nat) :
    ITsize ∣ (DynamicVector.create g n).capacity ∧
    n ≤ (DynamicVector.create g n).capacity ∧
    (∀ k, ITsize ∣ k → n ≤ k → (DynamicVector.create g n).capacity ≤ k) ∧
    (∀ idx, n ≤ idx → idx < (DynamicVector.create g n).capacity →
      (DynamicVector.create g n).v idx = 0) := by
  refine ⟨⟨(n + ITsize - 1) / ITsize, ?_⟩, adjustCapacity_ge n, ?_, ?_⟩
  · show adjustCapacity n = ITsize * ((n + ITsize - 1) / ITsize)
    simp only [adjustCapacity, ITsize]
    omega
  · rintro k ⟨c, rfl⟩ hk
    show adjustCapacity n ≤ ITsize * c
    simp only [ITsize] at hk
    simp only [adjustCapacity, ITsize]
    omega
  · intro idx h1 h2
    exact (create_Inv g n).2 idx h1 h2

/-- Witness for C7 at `n = 5`: the capacity is between 5 and 8 (hence 8, the
smallest multiple of 4 at least 5) and slot 6 of the padding is zero. -/
theorem C7_capacity_rounding_witness :
    (DynamicVector.create (fun _ => 7) 5).capacity ≤ 8 ∧
    5 ≤ (DynamicVector.create (fun _ => 7) 5).capacity ∧
    (DynamicVector.create (fun _ => 7) 5).v 6 = 0 :=
  ⟨(C7_capacity_rounding (fun _ => 7) 5).2.2.1 8 (by decide) (by decide),
   (C7_capacity_rounding (fun _ => 7) 5).2.1,
   (C7_capacity_rounding (fun _ => 7) 5).2.2.2 6 (by decide) (by decide)⟩

/-- C8: a DynamicVector created with size 5 (so capacity `adjustCapacity 5`)
and arbitrary contents, after `resize(3, preserve)` followed by
`resize(5, preserve)`, keeps its original elements at indices `[0..3)` and
holds the default value at indices `[3..5)`. -/
theorem C8_shrink_regrow (d : DynamicVector) (g g2 : Nat → Int)
    (hsz : d.size = 5) (hcap : d.capacity = adjustCapacity 5) :
    ((d.resize g 3 true).resize g2 5 true).size = 5 ∧
    (∀ i, i < 3 → ((d.resize g 3 true).resize g2 5 true).v i = d.v i) ∧
    (∀ i, 3 ≤ i → i < 5 → ((d.resize g 3 true).resize g2 5 true).v i = 0) := by
  have hc : d.capacity = 8 := by rw [hcap]; decide
  have h1 : d.resize g 3 true =
      { size := 3
        capacity := d.capacity
        v := fun i => if 3 ≤ i ∧ i < d.size then 0 else d.v i } := by
    unfold DynamicVector.resize
    rw [if_neg (by omega), if_pos (by omega)]
  have h2 : (d.resize g 3 true).resize g2 5 true =
      { size := 5
        capacity := d.capacity
        v := fun i => if 3 ≤ i ∧ i < d.size then 0 else d.v i } := by
    rw [h1]
    unfold DynamicVector.resize
    dsimp only
    rw [if_neg (by omega), if_neg (by omega)]
  refine ⟨by rw [h2], ?_, ?_⟩
  · intro i hi
    rw [h2]
    show (if 3 ≤ i ∧ i < d.size then (0 : Int) else d.v i) = d.v i
    rw [if_neg (by omega)]
  · intro i hi1 hi2
    rw [h2]
    show (if 3 ≤ i ∧ i < d.size then (0 : Int) else d.v i) = 0
    rw [if_pos ⟨hi1, by omega⟩]

/-- Witness for C8 at a concrete size-5 vector. -/
theorem C8_shrink_regrow_witness :
    ((exVec.resize (fun _ => 7) 3 true).resize (fun _ => 9) 5 true).size = 5 ∧
    ((exVec.resize (fun _ => 7) 3 true).resize (fun _ => 9) 5 true).v 1 =
      exVec.v 1 ∧
    ((exVec.resize (fun _ => 7) 3 true).resize (fun _ => 9) 5 true).v 4 = 0 :=
  ⟨(C8_shrink_regrow exVec (fun _ => 7) (fun _ => 9) rfl (by decide)).1,
   (C8_shrink_regrow exVec (fun _ => 7) (fun _ => 9) rfl (by decide)).2.1
     1 (by decide),
   (C8_shrink_regrow exVec (fun _ => 7) (fun _ => 9) rfl (by decide)).2.2
     4 (by decide) (by decide)⟩

/-- C9: assigning a 4x4 sparse matrix with exactly 3 stored entries (at
distinct in-bounds positions, with non-default values) into a shape-matched
4x4 view resets the view region first and then writes exactly the stored
entries: afterwards each stored position holds its (non-default) value and
every other of the 16 view positions holds the default value, regardless of
the view's prior contents. -/
theorem C9_sparse_assign_exact (S : DenseSubmatrix) (A : Mat) (B : SparseMat)
    (hm : S.m = 4) (hn : S.n = 4) (hbr : B.rows = 4) (hbc : B.cols = 4)
    (hlen : B.entries.length = 3)
    (hdist : B.entries.Pairwise (fun e e' => (e.1, e.2.1) ≠ (e'.1, e'.2.1)))
    (hbound : ∀ e ∈ B.entries, e.1 < 4 ∧ e.2.1 < 4)
    (hnz : ∀ e ∈ B.entries, e.2.2 ≠ 0) :
    ∃ A2 : Mat, S.opAssignSparse A B = Except.ok A2 ∧
      (∀ e ∈ B.entries, A2.v (S.row + e.1) (S.column + e.2.1) = e.2.2) ∧
      (∀ i j, i < 4 → j < 4 → (∀ e ∈ B.entries, ¬(i = e.1 ∧ j = e.2.1)) →
        A2.v (S.row + i) (S.column + j) = 0) ∧
      (∀ i j, i < 4 → j < 4 →
        (A2.v (S.row + i) (S.column + j) ≠ 0 ↔
          ∃ e ∈ B.entries, i = e.1 ∧ j = e.2.1)) := by
  have hwrite : ∀ e ∈ B.entries,
      (assignSparse S (S.resetView A) B).v (S.row + e.1) (S.column + e.2.1) =
        e.2.2 := by
    intro e he
    exact sparseFold_written S B.entries (S.resetView A) e.1 e.2.1 e.2.2
      he hdist
  have hzero : ∀ i j, i < 4 → j < 4 →
      (∀ e ∈ B.entries, ¬(i = e.1 ∧ j = e.2.1)) →
      (assignSparse S (S.resetView A) B).v (S.row + i) (S.column + j) = 0 := by
    intro i j hi hj hne
    have h1 : (assignSparse S (S.resetView A) B).v (S.row + i) (S.column + j) =
        (S.resetView A).v (S.row + i) (S.column + j) :=
      sparseFold_not_written S B.entries _ _ _ (by
        intro e he
        rintro ⟨ha, hb⟩
        exact hne e he ⟨by omega, by omega⟩)
    have h2 : (S.resetView A).v (S.row + i) (S.column + j) = 0 :=
      (resetView_writes S A (S.row + i) (S.column + j)).1
        ⟨by omega, by omega, by omega, by omega⟩
    rw [h1, h2]
  have hok : S.opAssignSparse A B =
      Except.ok (assignSparse S (S.resetView A) B) := by
    unfold DenseSubmatrix.opAssignSparse
    rw [if_neg (by omega)]
  refine ⟨assignSparse S (S.resetView A) B, hok, hwrite, hzero, ?_⟩
  intro i j hi hj
  constructor
  · intro hval
    by_cases hex : ∃ e ∈ B.entries, i = e.1 ∧ j = e.2.1
    · exact hex
    · exact absurd (hzero i j hi hj (fun e he hc => hex ⟨e, he, hc⟩)) hval
  · rintro ⟨e, he, rfl, rfl⟩
    rw [hwrite e he]
    exact hnz e he

/-- Witness for C9 at the concrete 3-entry sparse source. -/
theorem C9_sparse_assign_exact_witness :
    ∃ A2 : Mat, exView.opAssignSparse mat10 exSparse = Except.ok A2 ∧
      (∀ e ∈ exSparse.entries,
        A2.v (exView.row + e.1) (exView.column + e.2.1) = e.2.2) ∧
      (∀ i j, i < 4 → j < 4 →
        (∀ e ∈ exSparse.entries, ¬(i = e.1 ∧ j = e.2.1)) →
        A2.v (exView.row + i) (exView.column + j) = 0) ∧
      (∀ i j, i < 4 → j < 4 →
        (A2.v (exView.row + i) (exView.column + j) ≠ 0 ↔
          ∃ e ∈ exSparse.entries, i = e.1 ∧ j = e.2.1)) :=
  C9_sparse_assign_exact exView mat10 exSparse rfl rfl rfl rfl (by decide)
    (by decide) (by decide) (by decide)

end Blaze
